import Mathlib

/-!
# ipagent: a dynamic DNS updater

A shallow embedding of the Go program (config.go, ipify.go, cmd/ipagent.go) and of the
pieces of the Go standard library it calls (crypto/sha256, net.IP), followed by theorems
about the reconcile loop, the desired-state builder and the cache file.

Go strings are modelled as Lean strings; where the program converts a string to bytes the
UTF-8 encoding is used. Byte slices are lists of naturals below 256.
-/

namespace Ipagent

/-! ## Strings and bytes -/

/-- UTF-8 bytes of one character. -/
def utf8EncodeChar (c : Char) : List Nat :=
  let v := c.toNat
  if v ≤ 0x7f then [v]
  else if v ≤ 0x7ff then [0xc0 + v / 64, 0x80 + v % 64]
  else if v ≤ 0xffff then [0xe0 + v / 4096, 0x80 + v / 64 % 64, 0x80 + v % 64]
  else [0xf0 + v / 262144, 0x80 + v / 4096 % 64, 0x80 + v / 64 % 64, 0x80 + v % 64]

/-- Go conversion []byte(s). -/
def bytesOf (s : String) : List Nat :=
  s.data.flatMap utf8EncodeChar

/-- Go conversion string(b) as seen by code that inspects the string byte by byte:
each byte becomes one character. -/
def stringOf (b : List Nat) : String :=
  String.mk (b.map Char.ofNat)

/-! ## crypto/sha256 (FIPS 180-4), over naturals reduced modulo 2^32 -/

namespace SHA256

/-- Round constants. -/
def K : List Nat := [
  0x428a2f98, 0x71374491, 0xb5c0fbcf, 0xe9b5dba5, 0x3956c25b, 0x59f111f1, 0x923f82a4, 0xab1c5ed5,
  0xd807aa98, 0x12835b01, 0x243185be, 0x550c7dc3, 0x72be5d74, 0x80deb1fe, 0x9bdc06a7, 0xc19bf174,
  0xe49b69c1, 0xefbe4786, 0x0fc19dc6, 0x240ca1cc, 0x2de92c6f, 0x4a7484aa, 0x5cb0a9dc, 0x76f988da,
  0x983e5152, 0xa831c66d, 0xb00327c8, 0xbf597fc7, 0xc6e00bf3, 0xd5a79147, 0x06ca6351, 0x14292967,
  0x27b70a85, 0x2e1b2138, 0x4d2c6dfc, 0x53380d13, 0x650a7354, 0x766a0abb, 0x81c2c92e, 0x92722c85,
  0xa2bfe8a1, 0xa81a664b, 0xc24b8b70, 0xc76c51a3, 0xd192e819, 0xd6990624, 0xf40e3585, 0x106aa070,
  0x19a4c116, 0x1e376c08, 0x2748774c, 0x34b0bcb5, 0x391c0cb3, 0x4ed8aa4a, 0x5b9cca4f, 0x682e6ff3,
  0x748f82ee, 0x78a5636f, 0x84c87814, 0x8cc70208, 0x90befffa, 0xa4506ceb, 0xbef9a3f7, 0xc67178f2]

/-- Initial hash value. -/
def H0 : List Nat :=
  [0x6a09e667, 0xbb67ae85, 0x3c6ef372, 0xa54ff53a, 0x510e527f, 0x9b05688c, 0x1f83d9ab, 0x5be0cd19]

/-- Truncation to a 32-bit word. -/
def w32 (n : Nat) : Nat := n % 4294967296

/-- Right rotation of a 32-bit word. -/
def rotr (x n : Nat) : Nat := (x >>> n) ||| w32 (x <<< (32 - n))

/-- Bitwise complement of a 32-bit word. -/
def not32 (x : Nat) : Nat := 4294967295 - x

def sigma0 (x : Nat) : Nat := rotr x 7 ^^^ rotr x 18 ^^^ (x >>> 3)

def sigma1 (x : Nat) : Nat := rotr x 17 ^^^ rotr x 19 ^^^ (x >>> 10)

def bigSigma0 (x : Nat) : Nat := rotr x 2 ^^^ rotr x 13 ^^^ rotr x 22

def bigSigma1 (x : Nat) : Nat := rotr x 6 ^^^ rotr x 11 ^^^ rotr x 25

/-- Big-endian 32-bit words of a byte string. -/
def words : List Nat → List Nat
  | a :: b :: c :: d :: rest => (((a * 256 + b) * 256 + c) * 256 + d) :: words rest
  | _ => []

/-- Extends the message schedule, kept newest word first, by n words. -/
def extend : Nat → List Nat → List Nat
  | 0, w => w
  | n + 1, w =>
    extend n (w32 (sigma1 (w.getD 1 0) + w.getD 6 0 + sigma0 (w.getD 14 0) + w.getD 15 0) :: w)

/-- Working variables a..h. -/
structure Vars where
  a : Nat
  b : Nat
  c : Nat
  d : Nat
  e : Nat
  f : Nat
  g : Nat
  h : Nat

/-- One compression round with round constant kw.1 and schedule word kw.2. -/
def round (s : Vars) (kw : Nat × Nat) : Vars :=
  let ch := (s.e &&& s.f) ^^^ (not32 s.e &&& s.g)
  let t1 := w32 (s.h + bigSigma1 s.e + ch + kw.1 + kw.2)
  let maj := (s.a &&& s.b) ^^^ (s.a &&& s.c) ^^^ (s.b &&& s.c)
  let t2 := w32 (bigSigma0 s.a + maj)
  ⟨w32 (t1 + t2), s.a, s.b, s.c, w32 (s.d + t1), s.e, s.f, s.g⟩

/-- Compression of one 64-byte block into the hash state. -/
def block (h : List Nat) (blk : List Nat) : List Nat :=
  let w := (extend 48 (words blk).reverse).reverse
  let s : Vars := ⟨h.getD 0 0, h.getD 1 0, h.getD 2 0, h.getD 3 0,
    h.getD 4 0, h.getD 5 0, h.getD 6 0, h.getD 7 0⟩
  let r := (K.zip w).foldl round s
  List.zipWith (fun x y => w32 (x + y)) h [r.a, r.b, r.c, r.d, r.e, r.f, r.g, r.h]

/-- Big-endian encoding of n on k bytes. -/
def bigEndian (n : Nat) : Nat → List Nat
  | 0 => []
  | k + 1 => bigEndian (n / 256) k ++ [n % 256]

/-- Message padding: a 0x80 byte, zeros, and the bit length on 8 bytes. -/
def pad (m : List Nat) : List Nat :=
  m ++ [0x80] ++ List.replicate ((119 - m.length % 64) % 64) 0 ++ bigEndian (m.length * 8) 8

/-- Compression of n consecutive blocks. -/
def blocks : Nat → List Nat → List Nat → List Nat
  | 0, h, _ => h
  | n + 1, h, m => blocks n (block h (m.take 64)) (m.drop 64)

end SHA256

/-- A SHA-256 digest, [sha256.Size]byte. -/
abbrev Digest := List Nat

/-- Go sha256.Sum256. -/
def Sum256 (data : List Nat) : Digest :=
  let p := SHA256.pad data
  (SHA256.blocks (p.length / 64) SHA256.H0 p).flatMap (fun x => SHA256.bigEndian x 4)

/-! ## net.IP (Go standard library, package net) -/

/-- Go net.IP, a byte slice. The nil IP and the empty IP are both the empty list. -/
abbrev IP := List Nat

def IPv4len : Nat := 4

def IPv6len : Nat := 16

def v4InV6Prefix : List Nat := [0, 0, 0, 0, 0, 0, 0, 0, 0, 0, 0xff, 0xff]

/-- Go net.IPv4: the 16-byte form of the address a.b.c.d. -/
def IPv4 (a b c d : Nat) : IP := v4InV6Prefix ++ [a, b, c, d]

/-- Go net.IP.Equal: same length and same bytes, or an IPv4 address against its 16-byte form. -/
def IP.Equal (ip x : IP) : Bool :=
  if ip.length = x.length then decide (ip = x)
  else if ip.length = IPv4len ∧ x.length = IPv6len then
    decide (x.take 12 = v4InV6Prefix) && decide (ip = x.drop 12)
  else if ip.length = IPv6len ∧ x.length = IPv4len then
    decide (ip.take 12 = v4InV6Prefix) && decide (ip.drop 12 = x)
  else false

/-- Go net.IP.To4: the 4-byte form of an IPv4 address, nil otherwise. -/
def IP.To4 (ip : IP) : IP :=
  if ip.length = IPv4len then ip
  else if ip.length = IPv6len ∧ ip.take 10 = List.replicate 10 0
      ∧ ip.getD 10 0 = 0xff ∧ ip.getD 11 0 = 0xff then ip.drop 12
  else []

/-- Digit of value d < 16, lower case. -/
def hexDigit (d : Nat) : Char :=
  "0123456789abcdef".data.getD d '0'

/-- Digits of n in the given base, most significant first, prepended to acc. -/
def digits (base : Nat) : Nat → Nat → List Char → List Char
  | 0, _, acc => acc
  | fuel + 1, n, acc =>
    if n / base = 0 then hexDigit (n % base) :: acc
    else digits base fuel (n / base) (hexDigit (n % base) :: acc)

/-- Go uitoa: decimal form of an unsigned integer. -/
def uitoa (n : Nat) : String :=
  String.mk (digits 10 (n + 1) n [])

/-- Go appendHex: hexadecimal form without leading zeros. -/
def appendHex (dst : List Char) (i : Nat) : List Char :=
  dst ++ digits 16 (i + 1) i []

/-- Go hexString: two hexadecimal digits per byte. -/
def hexString (b : List Nat) : String :=
  String.mk (b.flatMap fun x => [hexDigit (x / 16 % 16), hexDigit (x % 16)])

/-- Inner loop of the zero-run search of IP.String: first index at or after j, in steps of
two bytes, where the 16-bit group is not zero. -/
def zeroRunEnd (p : IP) : Nat → Nat → Nat
  | 0, j => j
  | fuel + 1, j =>
    if j < IPv6len ∧ p.getD j 0 = 0 ∧ p.getD (j + 1) 0 = 0 then zeroRunEnd p fuel (j + 2) else j

/-- Outer loop of the zero-run search of IP.String: bounds e0, e1 of the first longest run of
zero groups, both -1 when there is none. -/
def longestZeroRun (p : IP) : Nat → Nat → Int → Int → Int × Int
  | 0, _, e0, e1 => (e0, e1)
  | fuel + 1, i, e0, e1 =>
    if i < IPv6len then
      let j := zeroRunEnd p 8 i
      if j > i ∧ (j : Int) - (i : Int) > e1 - e0 then longestZeroRun p fuel (j + 2) i j
      else longestZeroRun p fuel (i + 2) e0 e1
    else (e0, e1)

/-- Printing loop of IP.String: groups in hexadecimal separated by colons, the run e0..e1
replaced by a double colon. -/
def printGroups (p : IP) (e0 e1 : Int) : Nat → Nat → List Char → List Char
  | 0, _, b => b
  | fuel + 1, i, b =>
    if i < IPv6len then
      if (i : Int) = e0 then
        if e1.toNat ≥ IPv6len then b ++ [':', ':']
        else printGroups p e0 e1 fuel (e1.toNat + 2)
          (appendHex (b ++ [':', ':']) (p.getD e1.toNat 0 * 256 + p.getD (e1.toNat + 1) 0))
      else
        printGroups p e0 e1 fuel (i + 2)
          (appendHex (if i > 0 then b ++ [':'] else b) (p.getD i 0 * 256 + p.getD (i + 1) 0))
    else b

/-- Go net.IP.String: the textual form of an address. -/
def IP.String (ip : IP) : String :=
  if ip.length = 0 then "<nil>"
  else if (IP.To4 ip).length = IPv4len then
    uitoa ((IP.To4 ip).getD 0 0) ++ "." ++ uitoa ((IP.To4 ip).getD 1 0) ++ "."
      ++ uitoa ((IP.To4 ip).getD 2 0) ++ "." ++ uitoa ((IP.To4 ip).getD 3 0)
  else if ip.length ≠ IPv6len then "?" ++ hexString ip
  else
    let e := longestZeroRun ip 8 0 (-1) (-1)
    let e := if e.2 - e.1 ≤ 2 then ((-1 : Int), (-1 : Int)) else e
    String.mk (printGroups ip e.1 e.2 8 0 [])

/-- Limit above which dtoi gives up. -/
def big : Nat := 0xFFFFFF

/-- Loop of Go dtoi: n is the value so far, i the number of digits consumed. -/
def dtoiLoop : List Char → Nat → Nat → Nat × Nat × Bool
  | [], n, i => if i = 0 then (0, 0, false) else (n, i, true)
  | c :: cs, n, i =>
    if 48 ≤ c.toNat ∧ c.toNat ≤ 57 then
      if n * 10 + (c.toNat - 48) ≥ big then (big, i, false)
      else dtoiLoop cs (n * 10 + (c.toNat - 48)) (i + 1)
    else if i = 0 then (0, 0, false) else (n, i, true)

/-- Go dtoi: leading decimal number of s, as (value, characters consumed, ok). -/
def dtoi (s : List Char) : Nat × Nat × Bool :=
  dtoiLoop s 0 0

/-- Value of a hexadecimal digit, if c is one. -/
def hexValue (c : Char) : Option Nat :=
  if 48 ≤ c.toNat ∧ c.toNat ≤ 57 then some (c.toNat - 48)
  else if 97 ≤ c.toNat ∧ c.toNat ≤ 102 then some (c.toNat - 97 + 10)
  else if 65 ≤ c.toNat ∧ c.toNat ≤ 70 then some (c.toNat - 65 + 10)
  else none

/-- Hexadecimal-number loop of Go parseIPv6 (net.ParseIP goes through netip.ParseAddr):
acc is the value so far, off the number of digits read. A group has at least one and at most
four digits. Returns (value, characters consumed, ok). -/
def hexGroupLoop : List Char → Nat → Nat → Nat × Nat × Bool
  | [], acc, off => if off = 0 then (0, off, false) else (acc, off, true)
  | c :: cs, acc, off =>
    match hexValue c with
    | some v =>
      if off > 3 then (0, off, false)
      else if acc * 16 + v > 0xFFFF then (0, off, false)
      else hexGroupLoop cs (acc * 16 + v) (off + 1)
    | none => if off = 0 then (0, off, false) else (acc, off, true)

/-- Leading hexadecimal group of s, as (value, characters consumed, ok). -/
def hexGroup (s : List Char) : Nat × Nat × Bool :=
  hexGroupLoop s 0 0

/-- Loop of Go parseIPv4 over the k fields still to read; first tells whether the field is
the first one (no dot expected before it). Returns the octets and the unread rest. -/
def parseIPv4Fields : Nat → Bool → List Char → Option (List Nat × List Char)
  | 0, _, s => some ([], s)
  | k + 1, first, s =>
    if s = [] then none
    else if !first && s.head? != some '.' then none
    else
      let s := if first then s else s.drop 1
      let r := dtoi s
      if !r.2.2 || r.1 > 0xFF then none
      else if r.2.1 > 1 && s.head? == some '0' then none
      else
        match parseIPv4Fields k false (s.drop r.2.1) with
        | some (p, rest) => some (r.1 :: p, rest)
        | none => none

/-- Go parseIPv4: dotted decimal d.d.d.d, each field at most 255 and without leading zero. -/
def parseIPv4 (s : List Char) : IP :=
  match parseIPv4Fields IPv4len true s with
  | some ([a, b, c, d], []) => IPv4 a b c d
  | _ => []

/-- State of the main loop of Go parseIPv6. -/
structure V6State where
  ip : List Nat
  i : Nat
  ellipsis : Option Nat
  s : List Char

/-- Main loop of Go parseIPv6: hexadecimal groups separated by colons, at most one double
colon, possibly a trailing dotted-decimal IPv4 address. Returns none where the Go code
returns nil. -/
def parseIPv6Loop : Nat → V6State → Option V6State
  | 0, st => some st
  | fuel + 1, st =>
    if st.i < IPv6len then
      let r := hexGroup st.s
      if !r.2.2 || r.1 > 0xFFFF then none
      else if r.2.1 < st.s.length ∧ st.s.getD r.2.1 ' ' = '.' then
        if st.ellipsis = none ∧ st.i ≠ IPv6len - IPv4len then none
        else if st.i + IPv4len > IPv6len then none
        else
          let ip4 := parseIPv4 st.s
          if ip4 = [] then none
          else some { st with
            ip := st.ip.take st.i ++ ip4.drop 12 ++ st.ip.drop (st.i + IPv4len)
            i := st.i + IPv4len
            s := [] }
      else
        let ip := (st.ip.set st.i (r.1 / 256)).set (st.i + 1) (r.1 % 256)
        let i := st.i + 2
        let s := st.s.drop r.2.1
        match s with
        | [] => some { st with ip := ip, i := i, s := [] }
        | c :: t =>
          if c ≠ ':' ∨ t = [] then none
          else
            match t with
            | ':' :: u =>
              if st.ellipsis ≠ none then none
              else if u = [] then some { ip := ip, i := i, ellipsis := some i, s := [] }
              else parseIPv6Loop fuel { ip := ip, i := i, ellipsis := some i, s := u }
            | _ => parseIPv6Loop fuel { st with ip := ip, i := i, s := t }
    else some st

/-- Go parseIPv6 (no zone). -/
def parseIPv6 (s : List Char) : IP :=
  let zero := List.replicate IPv6len 0
  let start : Option V6State :=
    match s with
    | ':' :: ':' :: t =>
      if t = [] then none else some { ip := zero, i := 0, ellipsis := some 0, s := t }
    | _ => some { ip := zero, i := 0, ellipsis := none, s := s }
  match start with
  | none => zero
  | some st0 =>
    match parseIPv6Loop 9 st0 with
    | none => []
    | some st =>
      if st.s ≠ [] then []
      else if st.i < IPv6len then
        match st.ellipsis with
        | none => []
        | some e =>
          st.ip.take e ++ List.replicate (IPv6len - st.i) 0 ++ (st.ip.take st.i).drop e
      else if st.ellipsis ≠ none then []
      else st.ip

/-- Scan of Go ParseIP for the first dot, colon or percent sign of s; a percent sign would
start a zone, which ParseIP does not accept. -/
def ParseIP.scan (s : List Char) : List Char → IP
  | [] => []
  | c :: cs =>
    if c = '.' then parseIPv4 s
    else if c = ':' then parseIPv6 s
    else if c = '%' then []
    else ParseIP.scan s cs

/-- Go net.ParseIP: the address written in s, in 16-byte form, or nil when s is not the
textual form of an IP address. -/
def ParseIP (s : String) : IP :=
  ParseIP.scan s.data s.data

/-! ## config.go -/

/-- RecordType represents the type for DNS records. -/
abbrev RecordType := String

def A : RecordType := "A"

def AAAA : RecordType := "AAAA"

def CNAME : RecordType := "CNAME"

def MX : RecordType := "MX"

/-- IsValid checks whether a RecordType string is a valid DNS record type. -/
def RecordType.IsValid (rt : RecordType) : Bool :=
  if rt = A ∨ rt = AAAA ∨ rt = CNAME ∨ rt = MX then true else false

/-- Domain contains the values that represent a domain in a domain record on Cloudflare.
The field Type of the source is written Type_. -/
structure Domain where
  Name : String := ""
  Proxy : Bool := false
  Type_ : RecordType := ""
deriving DecidableEq, Repr

/-- CloudflareConfig holds the configuration values required to use the Cloudflare API. -/
structure CloudflareConfig where
  ZoneID : String := ""
  APIKey : String := ""
  APIEmail : String := ""
deriving DecidableEq, Repr

/-- Config holds the required configuration for ipagent. -/
structure Config where
  Logging : Bool := false
  Cloudflare : CloudflareConfig := {}
  Domain : Domain := {}
  SubDomains : List Ipagent.Domain := []
deriving DecidableEq, Repr

/-- The range loop of GetDomainList: the subdomain at index i is written, with the root name
appended to its own, at index i+1 of dList. -/
def Config.GetDomainList.loop (root : String) :
    Nat → List Ipagent.Domain → List Ipagent.Domain → List Ipagent.Domain
  | _, [], dList => dList
  | i, d :: rest, dList =>
    Config.GetDomainList.loop root (i + 1) rest
      (dList.set (i + 1) { d with Name := d.Name ++ "." ++ root })

/-- GetDomainList generates a list of both the domain and subdomains contained within a
Config value. -/
def Config.GetDomainList (c : Config) : List Ipagent.Domain :=
  let dList := List.replicate (c.SubDomains.length + 1) ({} : Ipagent.Domain)
  let dList := dList.set 0 c.Domain
  Config.GetDomainList.loop c.Domain.Name 0 c.SubDomains dList

/-! ## ipify.go -/

/-- What the request to api.ipify.org yields: a transport error, a body that does not decode,
or the decoded IpifyResp with its ip field (empty when the field is missing). -/
inductive IpifyReply where
  | getError (err : String)
  | decodeError (err : String)
  | resp (IP : String)
deriving DecidableEq, Repr

/-- QueryIP returns a net.IP value that is the current public IP of the network. -/
def QueryIP (reply : IpifyReply) : IP × Option String :=
  match reply with
  | .getError err => ([], some err)
  | .decodeError err => ([], some err)
  | .resp ipJson => (ParseIP ipJson, none)

/-! ## cmd/ipagent.go -/

/-- The fields of cloudflare.DNSRecord the program reads or writes. -/
structure DNSRecord where
  ID : String := ""
  Type_ : String := ""
  Name : String := ""
  Content : String := ""
  Proxied : Bool := false
deriving DecidableEq, Repr

/-- The remote Cloudflare API behind *cloudflare.API. A mutation request gets, besides its
arguments, the number of mutation requests already sent in the run; the result is the error
returned, if any. -/
structure API where
  DNSRecords : String → DNSRecord → Except String (List DNSRecord)
  UpdateDNSRecord : Nat → String → String → DNSRecord → Option String
  CreateDNSRecord : Nat → String → DNSRecord → Option String

/-- CloudflareClient provides a configured wrapper around the Cloudflare API. -/
structure CloudflareClient where
  api : API
  zoneID : String

/-- NewCloudflareClient constructs a new Cloudflare client based on the config; new stands
for cloudflare.New. -/
def NewCloudflareClient (new : String → String → Except String API) (config : CloudflareConfig) :
    Except String CloudflareClient :=
  match new config.APIKey config.APIEmail with
  | .error err => .error err
  | .ok api => .ok ⟨api, config.ZoneID⟩

/-- UpdateRecord updates a DNS record in Cloudflare; sent is the number of mutation requests
already sent. -/
def CloudflareClient.UpdateRecord (c : CloudflareClient) (sent : Nat) (domain : Domain)
    (recordID : String) (ip : IP) : Option String :=
  c.api.UpdateDNSRecord sent c.zoneID recordID
    { Type_ := domain.Type_, Name := domain.Name, Content := IP.String ip, Proxied := domain.Proxy }

/-- CreateRecord creates a new DNS record in Cloudflare; sent is the number of mutation
requests already sent. -/
def CloudflareClient.CreateRecord (c : CloudflareClient) (sent : Nat) (domain : Domain)
    (ip : IP) : Option String :=
  c.api.CreateDNSRecord sent c.zoneID
    { Type_ := domain.Type_, Name := domain.Name, Content := IP.String ip, Proxied := domain.Proxy }

/-- GetRecords returns all records for the configured zone. -/
def CloudflareClient.GetRecords (c : CloudflareClient) : Except String (List DNSRecord) :=
  c.api.DNSRecords c.zoneID {}

/-- State of the cache file os.TempDir()/ipagent.tmp: its bytes (none when the file does not
exist) and the errors the operating system answers to reading, opening for writing and
writing it. -/
structure CacheFile where
  content : Option (List Nat) := none
  readError : Option String := none
  openError : Option String := none
  writeError : Option String := none
deriving DecidableEq, Repr

/-- Errors of ReadCache: the file does not exist, or anything else. -/
inductive PathError where
  | notExist
  | other (err : String)
deriving DecidableEq, Repr

/-- Go os.IsNotExist on the errors of ReadCache. -/
def IsNotExist : PathError → Bool
  | .notExist => true
  | .other _ => false

/-- WriteCache writes an IP address to a cache file in the OS tmp directory. It creates the
file if one does not already exist. The file is opened with O_CREATE|O_WRONLY (neither
O_TRUNC nor O_APPEND), so WriteString overwrites from offset 0 and bytes of the old content
beyond the written length stay. Returns the new file state and the error, if any. -/
def WriteCache (ip : IP) (f : CacheFile) : CacheFile × Option String :=
  match f.openError with
  | some err => (f, some err)
  | none =>
    let old := f.content.getD []
    match f.writeError with
    | some err => ({ f with content := some old }, some err)
    | none =>
      let b := bytesOf (IP.String ip)
      ({ f with content := some (b ++ old.drop b.length) }, none)

/-- ReadCache reads from the cache file in the OS tmp directory if it exists. -/
def ReadCache (f : CacheFile) : IP × Option PathError :=
  match f.content with
  | none => ([], some .notExist)
  | some b =>
    match f.readError with
    | some err => ([], some (.other err))
    | none => (ParseIP (stringOf b), none)

/-- The index dMap of main: a Go map from digests to records. -/
abbrev DMap := Digest → Option DNSRecord

/-- Go map assignment m[k] = v. -/
def DMap.set (m : DMap) (k : Digest) (v : DNSRecord) : DMap :=
  fun k1 => if k1 = k then some v else m k1

/-- Index key of a remote record: sha256.Sum256([]byte(record.Name + "|" + record.Type)). -/
def recordKey (record : DNSRecord) : Digest :=
  Sum256 (bytesOf (record.Name ++ "|" ++ record.Type_))

/-- Index key of a desired domain:
sha256.Sum256([]byte(domain.Name + "|" + string(domain.Type))). -/
def domainKey (domain : Domain) : Digest :=
  Sum256 (bytesOf (domain.Name ++ "|" ++ domain.Type_))

/-- The first loop of main: every fetched record is stored under its key, in fetch order. -/
def buildIndex (records : List DNSRecord) : DMap :=
  records.foldl (fun dMap record => dMap.set (recordKey record) record) (fun _ => none)

/-- The branch the second loop of main takes for one domain, as its log line announces it:
NoOp (does not need updating), Update (updating, with the ID of the indexed record) or
Create (does not currently have record, will create). -/
inductive Decision where
  | NoOp (domain : Domain)
  | Update (domain : Domain) (remoteID : String)
  | Create (domain : Domain)
deriving DecidableEq, Repr

/-- A call of one of the two mutating client methods, with its arguments. -/
inductive Call where
  | UpdateRecord (domain : Domain) (recordID : String) (ip : IP)
  | CreateRecord (domain : Domain) (ip : IP)
deriving DecidableEq, Repr

/-- What the second loop of main has done so far: the branches taken, the client calls made,
and whether os.Exit(1) was reached. -/
structure LoopState where
  decisions : List Decision := []
  calls : List Call := []
  exited : Bool := false
deriving DecidableEq, Repr

/-- Body of the second loop of main for one domain. -/
def loopBody (client : CloudflareClient) (dMap : DMap) (ip : IP) (dry : Bool)
    (s : LoopState) (domain : Domain) : LoopState :=
  match dMap (domainKey domain) with
  | some record =>
    if record.Content ≠ IP.String ip then
      let s := { s with decisions := s.decisions ++ [Decision.Update domain record.ID] }
      if !dry then
        match client.UpdateRecord s.calls.length domain record.ID ip with
        | some _ =>
          { s with calls := s.calls ++ [Call.UpdateRecord domain record.ID ip], exited := true }
        | none => { s with calls := s.calls ++ [Call.UpdateRecord domain record.ID ip] }
      else s
    else { s with decisions := s.decisions ++ [Decision.NoOp domain] }
  | none =>
    let s := { s with decisions := s.decisions ++ [Decision.Create domain] }
    if !dry then
      match client.CreateRecord s.calls.length domain ip with
      | some _ => { s with calls := s.calls ++ [Call.CreateRecord domain ip], exited := true }
      | none => { s with calls := s.calls ++ [Call.CreateRecord domain ip] }
    else s

/-- The second loop of main over the desired domains; it stops where os.Exit(1) is reached. -/
def reconcileLoop (client : CloudflareClient) (dMap : DMap) (ip : IP) (dry : Bool) :
    List Domain → LoopState → LoopState
  | [], s => s
  | domain :: rest, s =>
    if (loopBody client dMap ip dry s domain).exited then loopBody client dMap ip dry s domain
    else reconcileLoop client dMap ip dry rest (loopBody client dMap ip dry s domain)

/-- Where a run of main ends. -/
inductive Stop where
  | configError
  | queryError
  | cacheError
  | unchanged
  | clientError
  | recordsError
  | applyError
  | done
  | panic
deriving DecidableEq, Repr

/-- Exit status of the process: 0 when the IP is unchanged or the loop completes, 2 when the
Go runtime panics, 1 on every fatal error. -/
def Stop.exitCode : Stop → Nat
  | .unchanged => 0
  | .done => 0
  | .panic => 2
  | _ => 1

/-- Everything main depends on outside the program: the outcome of NewConfig, the dry flag,
the operating system name runtime.GOOS, the error of syslog.New (if any), the reply of the IP
service, the cache file, and cloudflare.New. -/
structure World where
  config : Except String Config
  dry : Bool
  goos : String
  syslogError : Option String
  ipify : IpifyReply
  cache : CacheFile
  cloudflareNew : String → String → Except String API

/-- Result of a run of main. -/
structure Run where
  stop : Stop
  decisions : List Decision := []
  calls : List Call := []
  cache : CacheFile
deriving DecidableEq, Repr

/-- The function main. The text of the log output is left out. What is kept of the logging
set-up: when the configuration asks for logging, the system is not darwin and syslog.New
fails, main only reports it and hands the nil logger to log.SetOutput; every message then goes
through the log package, and the first one, printed right after QueryIP returns (with or
without error), panics on the nil writer. -/
def main (w : World) : Run :=
  match w.config with
  | .error _ => { stop := .configError, cache := w.cache }
  | .ok c =>
    match QueryIP w.ipify with
    | (ip, queryErr) =>
      if c.Logging && w.goos != "darwin" && w.syslogError.isSome then
        { stop := .panic, cache := w.cache }
      else if queryErr.isSome then { stop := .queryError, cache := w.cache }
      else
        match ReadCache w.cache with
        | (cacheIP, err) =>
          if err.any (fun e => !IsNotExist e) then { stop := .cacheError, cache := w.cache }
          else if IP.Equal cacheIP ip then { stop := .unchanged, cache := w.cache }
          else
            let cache := (WriteCache ip w.cache).1
            match NewCloudflareClient w.cloudflareNew c.Cloudflare with
            | .error _ => { stop := .clientError, cache := cache }
            | .ok client =>
              match client.GetRecords with
              | .error _ => { stop := .recordsError, cache := cache }
              | .ok records =>
                let s := reconcileLoop client (buildIndex records) ip w.dry c.GetDomainList {}
                { stop := if s.exited then .applyError else .done
                  decisions := s.decisions
                  calls := s.calls
                  cache := cache }

/-! ### Derived views of the loop -/

/-- The branch loopBody takes for a domain, as a function of the index and the IP alone. -/
def decisionFor (dMap : DMap) (ip : IP) (domain : Domain) : Decision :=
  match dMap (domainKey domain) with
  | some record =>
    if record.Content ≠ IP.String ip then Decision.Update domain record.ID
    else Decision.NoOp domain
  | none => Decision.Create domain

/-- The domain a decision is about. -/
def Decision.domain : Decision → Domain
  | .NoOp d => d
  | .Update d _ => d
  | .Create d => d

/-- The domain passed to a client call. -/
def Call.domain : Call → Domain
  | .UpdateRecord d _ _ => d
  | .CreateRecord d _ => d

/-- The client call a decision leads to outside dry mode. -/
def Decision.call (ip : IP) : Decision → Option Call
  | .NoOp _ => none
  | .Update d id => some (Call.UpdateRecord d id ip)
  | .Create d => some (Call.CreateRecord d ip)

/-- The error, if any, the client answers to a call made after sent earlier ones. -/
def CloudflareClient.answer (c : CloudflareClient) (sent : Nat) : Call → Option String
  | .UpdateRecord d id ip => c.UpdateRecord sent d id ip
  | .CreateRecord d ip => c.CreateRecord sent d ip

/-- The client calls planned for a list of domains: those of their decisions, in order. -/
def plannedCalls (dMap : DMap) (ip : IP) (domains : List Domain) : List Call :=
  domains.filterMap fun d => (decisionFor dMap ip d).call ip

/-! ## Test data -/

/-- The configuration of config_test.go (validConf), as viper unmarshals it. -/
def validConf : Config :=
  { Logging := true
    Cloudflare :=
      { ZoneID := "aaaaaaaaaaaaaaaa", APIKey := "bbbbbbbbbbbbbbbb", APIEmail := "mail@example.com" }
    Domain := { Name := "example.com", Proxy := true, Type_ := A }
    SubDomains :=
      [{ Name := "a", Proxy := false, Type_ := A }, { Name := "b", Proxy := true, Type_ := A }] }

/-- The credentials of validConf with a single domain whose record type is outside A, AAAA,
CNAME, MX. -/
def txtConf : Config :=
  { Logging := false
    Cloudflare :=
      { ZoneID := "aaaaaaaaaaaaaaaa", APIKey := "bbbbbbbbbbbbbbbb", APIEmail := "mail@example.com" }
    Domain := { Name := "example.com", Proxy := false, Type_ := "TXT" }
    SubDomains := [] }

/-- A remote API that lists the given records and accepts every mutation. -/
def acceptingAPI (records : List DNSRecord) : API :=
  { DNSRecords := fun _ _ => .ok records
    UpdateDNSRecord := fun _ _ _ _ => none
    CreateDNSRecord := fun _ _ _ => none }

/-- The function cloudflare.New in front of acceptingAPI: as in the cloudflare-go library, an
empty key or an empty email is refused. -/
def acceptingNew (records : List DNSRecord) (key email : String) : Except String API :=
  if key = "" ∨ email = "" then .error "invalid credentials: key & email must not be empty"
  else .ok (acceptingAPI records)

/-- A world on linux with a working syslog and no cache file, with the given configuration,
reply of the IP service and remote records, and a remote API that accepts every mutation. -/
def firstRun (c : Config) (dry : Bool) (reply : String) (records : List DNSRecord) : World :=
  { config := .ok c
    dry := dry
    goos := "linux"
    syslogError := none
    ipify := .resp reply
    cache := {}
    cloudflareNew := acceptingNew records }

/-- A client for zone z1 of a remote API that accepts every mutation. -/
def acceptingClient : CloudflareClient :=
  { api := acceptingAPI [], zoneID := "z1" }

/-- Two remote records with different (Name, Type) whose key strings Name + "|" + Type are
both a|b|c. -/
def clashingRecords : List DNSRecord :=
  [{ ID := "id1", Type_ := "c", Name := "a|b", Content := "1.1.1.1" },
   { ID := "id2", Type_ := "b|c", Name := "a", Content := "2.2.2.2" }]

/-- A desired domain with the (Name, Type) of the first of clashingRecords. -/
def clashingDomain : Domain :=
  { Name := "a|b", Proxy := false, Type_ := "c" }

/-- Two remote records for example.com/A, fetched in this order. -/
def duplicateRecords : List DNSRecord :=
  [{ ID := "id1", Type_ := "A", Name := "example.com", Content := "1.2.3.4" },
   { ID := "id2", Type_ := "A", Name := "example.com", Content := "5.6.7.8", Proxied := true }]

/-- One remote record for example.com/A, not proxied, with content 9.9.9.9. -/
def currentRecords : List DNSRecord :=
  [{ ID := "id1", Type_ := "A", Name := "example.com", Content := "9.9.9.9", Proxied := false }]

/-- The remote records of the scenario: example.com/A with content 1.2.3.4 (id1) and
a.example.com/A with content 5.6.7.8 (id2). -/
def scenarioRecords : List DNSRecord :=
  [{ ID := "id1", Type_ := "A", Name := "example.com", Content := "1.2.3.4" },
   { ID := "id2", Type_ := "A", Name := "a.example.com", Content := "5.6.7.8" }]

/-- A remote API that accepts the first mutation request and rejects every later one. -/
def secondFailsAPI : API :=
  { DNSRecords := fun _ _ => .ok scenarioRecords
    UpdateDNSRecord := fun sent _ _ _ => if sent = 0 then none else some "rejected"
    CreateDNSRecord := fun sent _ _ => if sent = 0 then none else some "rejected" }

/-- A client of secondFailsAPI. -/
def secondFailsClient : CloudflareClient :=
  { api := secondFailsAPI, zoneID := "z1" }

end Ipagent

/-! # Theorems -/

namespace Ipagent

set_option maxRecDepth 100000

/-! ## Checks of the library model against known values -/

/-- The SHA-256 test vector for the message abc (FIPS 180-4). -/
theorem sum256_abc :
    Sum256 (bytesOf "abc") =
      [0xba, 0x78, 0x16, 0xbf, 0x8f, 0x01, 0xcf, 0xea, 0x41, 0x41, 0x40, 0xde, 0x5d, 0xae, 0x22,
       0x23, 0xb0, 0x03, 0x61, 0xa3, 0x96, 0x17, 0x7a, 0x9c, 0xb4, 0x10, 0xff, 0x61, 0xf2, 0x00,
       0x15, 0xad] := by
  decide

/-- ParseIP and IP.String on a few addresses: dotted decimal in 16-byte form, a compressed
IPv6 address, and strings that are no address. -/
theorem parseIP_examples :
    ParseIP "9.9.9.9" = IPv4 9 9 9 9 ∧
    IP.String (ParseIP "192.168.100.100") = "192.168.100.100" ∧
    IP.String (ParseIP "2001:db8:0:0:1:0:0:1") = "2001:db8::1:0:0:1" ∧
    IP.String (ParseIP "::ffff:1.2.3.4") = "1.2.3.4" ∧
    ParseIP "" = [] ∧
    ParseIP "1.2.3" = [] ∧
    ParseIP "256.1.1.1" = [] ∧
    ParseIP "1:2" = [] ∧
    ParseIP "00001::1" = [] ∧
    ParseIP "12345::" = [] ∧
    ParseIP "fe80::1%eth0" = [] ∧
    IP.String (ParseIP "0001::1") = "1::1" ∧
    IP.String [] = "<nil>" := by
  decide

/-! ## Desired-state builder -/

/-- The range loop of GetDomainList overwrites the slots after the first i+1 with the
qualified subdomains and leaves the rest of the slice alone. -/
theorem getDomainList_loop_eq (root : String) (subs : List Domain) :
    ∀ (i : Nat) (pre mid post : List Domain), pre.length = i + 1 → mid.length = subs.length →
      Config.GetDomainList.loop root i subs (pre ++ mid ++ post) =
        pre ++ subs.map (fun d => { d with Name := d.Name ++ "." ++ root }) ++ post := by
  induction subs with
  | nil =>
    intro i pre mid post _ hmid
    have hnil : mid = [] := List.length_eq_zero.mp hmid
    subst hnil
    simp [Config.GetDomainList.loop]
  | cons d rest ih =>
    intro i pre mid post hpre hmid
    cases mid with
    | nil => simp at hmid
    | cons m mid1 =>
      have h := ih (i + 1) (pre ++ [{ d with Name := d.Name ++ "." ++ root }]) mid1 post
        (by simp [hpre]) (by simpa using hmid)
      have hset : (pre ++ (m :: mid1) ++ post).set (i + 1) { d with Name := d.Name ++ "." ++ root }
          = pre ++ [{ d with Name := d.Name ++ "." ++ root }] ++ mid1 ++ post := by
        rw [List.append_assoc, List.set_append_right _ _ (by omega)]
        simp [hpre]
      simp only [Config.GetDomainList.loop]
      rw [hset, h]
      simp

/-- GetDomainList is the root domain followed by the qualified subdomains. -/
theorem getDomainList_eq (c : Config) :
    c.GetDomainList =
      c.Domain :: c.SubDomains.map (fun d => { d with Name := d.Name ++ "." ++ c.Domain.Name }) := by
  have h := getDomainList_loop_eq c.Domain.Name c.SubDomains 0 [c.Domain]
    (List.replicate c.SubDomains.length {}) [] rfl (by simp)
  simpa [Config.GetDomainList, List.replicate_succ] using h

/-- C5: GetDomainList returns len(SubDomains)+1 entries, entry 0 is the root domain
unchanged, and entry i+1 is subdomain i with the root name appended after a dot and its own
Proxy and Type; nothing is deduplicated. -/
theorem getDomainList_spec (c : Config) :
    c.GetDomainList.length = c.SubDomains.length + 1 ∧
    c.GetDomainList[0]? = some c.Domain ∧
    ∀ (i : Nat) (d : Domain), c.SubDomains[i]? = some d →
      c.GetDomainList[i + 1]? =
        some { Name := d.Name ++ "." ++ c.Domain.Name, Proxy := d.Proxy, Type_ := d.Type_ } := by
  rw [getDomainList_eq]
  refine ⟨by simp, by simp, ?_⟩
  intro i d hd
  simp [List.getElem?_map, hd]

/-- C5 at the fragment a of validConf: entry 1 is a.example.com, and two fragments with the
same name both stay in the list. -/
theorem getDomainList_spec_witness :
    validConf.SubDomains[0]? = some { Name := "a", Proxy := false, Type_ := A } ∧
    validConf.GetDomainList[0 + 1]? =
      some { Name := "a" ++ "." ++ "example.com", Proxy := false, Type_ := A } ∧
    ("a" ++ "." ++ "example.com" : String) = "a.example.com" ∧
    (Config.GetDomainList { validConf with SubDomains := [{ Name := "a" }, { Name := "a" }] }).length
      = 3 :=
  ⟨by decide,
    (getDomainList_spec validConf).2.2 0 { Name := "a", Proxy := false, Type_ := A } (by decide),
    by decide, by decide⟩

/-! ## The index -/

/-- After the first loop of main, a key holds the last record stored under it, or what the
map held before when no record has that key. -/
theorem foldl_set_apply (records : List DNSRecord) :
    ∀ (m : DMap) (k : Digest),
      (records.foldl (fun dMap record => dMap.set (recordKey record) record) m) k =
        ((records.filter (fun r => decide (recordKey r = k))).getLast?).or (m k) := by
  induction records with
  | nil => intro m k; simp
  | cons r rs ih =>
    intro m k
    rw [List.foldl_cons, ih]
    by_cases h : recordKey r = k
    · simp only [List.filter_cons, h, decide_True, if_true, List.getLast?_cons, DMap.set]
      cases (rs.filter (fun r => decide (recordKey r = k))).getLast? <;> simp
    · have h2 : ¬ k = recordKey r := fun e => h e.symm
      simp [List.filter_cons, h, DMap.set, h2]

/-- The index maps a key to the last fetched record having that key. -/
theorem buildIndex_apply (records : List DNSRecord) (k : Digest) :
    buildIndex records k = (records.filter (fun r => decide (recordKey r = k))).getLast? := by
  simp [buildIndex, foldl_set_apply]

/-- A key is absent from the index exactly when no fetched record has it. -/
theorem buildIndex_eq_none (records : List DNSRecord) (k : Digest) :
    buildIndex records k = none ↔ ∀ r ∈ records, recordKey r ≠ k := by
  rw [buildIndex_apply, List.getLast?_eq_none_iff, List.filter_eq_nil_iff]
  simp

/-- A record with the Name and Type of a domain has the key of that domain. -/
theorem recordKey_eq_domainKey (r : DNSRecord) (d : Domain)
    (h : r.Name = d.Name ∧ r.Type_ = d.Type_) : recordKey r = domainKey d := by
  simp [recordKey, domainKey, h.1, h.2]

/-! ## The body of the reconcile loop -/

/-- The loop body records the branch decisionFor names and, outside dry mode, makes the call
of that branch and no other. -/
theorem loopBody_decisions_calls (client : CloudflareClient) (dMap : DMap) (ip : IP)
    (dry : Bool) (s : LoopState) (d : Domain) :
    (loopBody client dMap ip dry s d).decisions = s.decisions ++ [decisionFor dMap ip d] ∧
    (loopBody client dMap ip dry s d).calls =
      s.calls ++ (if dry then [] else ((decisionFor dMap ip d).call ip).toList) := by
  unfold loopBody decisionFor
  cases hk : dMap (domainKey d) with
  | none =>
    cases dry
    · cases hc : client.CreateRecord s.calls.length d ip <;> simp [Decision.call, hc]
    · simp
  | some record =>
    by_cases hcontent : record.Content ≠ IP.String ip
    · cases dry
      · cases hc : client.UpdateRecord s.calls.length d record.ID ip <;>
          simp [Decision.call, hc, hcontent]
      · simp [hcontent]
    · simp [hcontent, Decision.call]

/-- C1, as the code stands: with clashingRecords the domain a|b of type c has a remote record
of its own (id1, the last and only one with that Name and Type), the indexed record differs
from the IP, and UpdateRecord is called with id2, the ID of a record of another Name and
Type. -/
theorem update_id_counterexample :
    (∃ r ∈ clashingRecords, r.Name = clashingDomain.Name ∧ r.Type_ = clashingDomain.Type_) ∧
    (buildIndex clashingRecords (domainKey clashingDomain)).map DNSRecord.Content
      = some "2.2.2.2" ∧
    IP.String (IPv4 9 9 9 9) = "9.9.9.9" ∧
    ((clashingRecords.filter (fun r =>
        decide (r.Name = clashingDomain.Name ∧ r.Type_ = clashingDomain.Type_))).getLast?).map
      DNSRecord.ID = some "id1" ∧
    (loopBody acceptingClient (buildIndex clashingRecords) (IPv4 9 9 9 9) false {}
        clashingDomain).calls
      = [Call.UpdateRecord clashingDomain "id2" (IPv4 9 9 9 9)] ∧
    (loopBody acceptingClient (buildIndex clashingRecords) (IPv4 9 9 9 9) false {}
        clashingDomain).calls
      ≠ [Call.UpdateRecord clashingDomain "id1" (IPv4 9 9 9 9)] := by
  decide

/-- C1, amended: if some remote record has the Name and Type of a desired domain, the indexed
record differs in Content from ip.String(), and every remote record stored under the key of
the domain has the Name and Type of the domain, then the branch taken is Update, the ID passed
to UpdateRecord is that of the last fetched record with that Name and Type, and CreateRecord
is not called. -/
theorem update_passes_last_record_id (client : CloudflareClient) (records : List DNSRecord)
    (ip : IP) (dry : Bool) (s : LoopState) (d : Domain)
    (hsame : ∃ r ∈ records, r.Name = d.Name ∧ r.Type_ = d.Type_)
    (hcontent : ∀ r, buildIndex records (domainKey d) = some r → r.Content ≠ IP.String ip)
    (hkey : ∀ r ∈ records, recordKey r = domainKey d → r.Name = d.Name ∧ r.Type_ = d.Type_) :
    ∃ last,
      (records.filter (fun r => decide (r.Name = d.Name ∧ r.Type_ = d.Type_))).getLast?
        = some last ∧
      (loopBody client (buildIndex records) ip dry s d).decisions
        = s.decisions ++ [Decision.Update d last.ID] ∧
      (loopBody client (buildIndex records) ip dry s d).calls
        = s.calls ++ (if dry then [] else [Call.UpdateRecord d last.ID ip]) := by
  have hfilter : records.filter (fun r => decide (recordKey r = domainKey d))
      = records.filter (fun r => decide (r.Name = d.Name ∧ r.Type_ = d.Type_)) := by
    apply List.filter_congr
    intro r hr
    by_cases h : r.Name = d.Name ∧ r.Type_ = d.Type_
    · simp [h, recordKey_eq_domainKey r d h]
    · have hk : ¬ recordKey r = domainKey d := fun e => h (hkey r hr e)
      simp [h, hk]
  obtain ⟨r0, hr0, hr0same⟩ := hsame
  have hne : records.filter (fun r => decide (r.Name = d.Name ∧ r.Type_ = d.Type_)) ≠ [] := by
    intro hnil
    have hmem : r0 ∈ records.filter (fun r => decide (r.Name = d.Name ∧ r.Type_ = d.Type_)) :=
      List.mem_filter.mpr ⟨hr0, by simpa using hr0same⟩
    rw [hnil] at hmem
    cases hmem
  cases hlast : (records.filter
      (fun r => decide (r.Name = d.Name ∧ r.Type_ = d.Type_))).getLast? with
  | none => exact absurd (List.getLast?_eq_none_iff.mp hlast) hne
  | some last =>
    have hidx : buildIndex records (domainKey d) = some last := by
      rw [buildIndex_apply, hfilter, hlast]
    have hdec : decisionFor (buildIndex records) ip d = Decision.Update d last.ID := by
      simp [decisionFor, hidx, hcontent last hidx]
    refine ⟨last, rfl, ?_, ?_⟩
    · rw [(loopBody_decisions_calls client _ ip dry s d).1, hdec]
    · rw [(loopBody_decisions_calls client _ ip dry s d).2, hdec]
      cases dry <;> simp [Decision.call]

/-- C1, amended, at duplicateRecords: of the two records for example.com/A the ID of the
second is passed. -/
theorem update_passes_last_record_id_witness :
    (∃ r ∈ duplicateRecords, r.Name = validConf.Domain.Name ∧ r.Type_ = validConf.Domain.Type_) ∧
    (∀ r ∈ duplicateRecords, recordKey r = domainKey validConf.Domain →
      r.Name = validConf.Domain.Name ∧ r.Type_ = validConf.Domain.Type_) ∧
    ∃ last,
      (duplicateRecords.filter (fun r => decide
        (r.Name = validConf.Domain.Name ∧ r.Type_ = validConf.Domain.Type_))).getLast?
        = some last ∧
      last.ID = "id2" ∧
      (loopBody acceptingClient (buildIndex duplicateRecords) (IPv4 9 9 9 9) false {}
          validConf.Domain).decisions
        = [] ++ [Decision.Update validConf.Domain last.ID] ∧
      (loopBody acceptingClient (buildIndex duplicateRecords) (IPv4 9 9 9 9) false {}
          validConf.Domain).calls
        = [] ++ (if false then [] else [Call.UpdateRecord validConf.Domain last.ID (IPv4 9 9 9 9)]) := by
  have hidx : buildIndex duplicateRecords (domainKey validConf.Domain)
      = some { ID := "id2", Type_ := "A", Name := "example.com", Content := "5.6.7.8",
               Proxied := true } := by decide
  have hsame : ∃ r ∈ duplicateRecords,
      r.Name = validConf.Domain.Name ∧ r.Type_ = validConf.Domain.Type_ := by decide
  have hkey : ∀ r ∈ duplicateRecords, recordKey r = domainKey validConf.Domain →
      r.Name = validConf.Domain.Name ∧ r.Type_ = validConf.Domain.Type_ := by decide
  obtain ⟨last, hlast, hd, hc⟩ := update_passes_last_record_id acceptingClient duplicateRecords
    (IPv4 9 9 9 9) false {} validConf.Domain hsame
    (by
      intro r hr
      rw [hidx] at hr
      cases hr
      decide)
    hkey
  refine ⟨hsame, hkey, last, hlast, ?_, hd, hc⟩
  have h2 : (duplicateRecords.filter (fun r => decide
      (r.Name = validConf.Domain.Name ∧ r.Type_ = validConf.Domain.Type_))).getLast?
      = some { ID := "id2", Type_ := "A", Name := "example.com", Content := "5.6.7.8",
               Proxied := true } := by decide
  rw [h2] at hlast
  cases hlast
  rfl

/-- C2, as the code stands: no remote record has the Name a|b and the Type c of the desired
domain, yet the record a of type b|c has the same key string, and the branch taken is Update
with the ID of that record, not Create. -/
theorem create_counterexample :
    (∀ r ∈ clashingRecords.drop 1,
      ¬ (r.Name = clashingDomain.Name ∧ r.Type_ = clashingDomain.Type_)) ∧
    (loopBody acceptingClient (buildIndex (clashingRecords.drop 1)) (IPv4 9 9 9 9) false {}
        clashingDomain).decisions
      = [Decision.Update clashingDomain "id2"] ∧
    (loopBody acceptingClient (buildIndex (clashingRecords.drop 1)) (IPv4 9 9 9 9) false {}
        clashingDomain).calls
      = [Call.UpdateRecord clashingDomain "id2" (IPv4 9 9 9 9)] ∧
    Decision.Create clashingDomain ∉
      (loopBody acceptingClient (buildIndex (clashingRecords.drop 1)) (IPv4 9 9 9 9) false {}
        clashingDomain).decisions := by
  decide

/-- C2, amended: if no remote record has the Name and Type of a desired domain, and no
remote record of another Name or Type is stored under the key of the domain, then the branch
taken is Create, once, and no Update is made. -/
theorem create_when_no_record (client : CloudflareClient) (records : List DNSRecord)
    (ip : IP) (dry : Bool) (s : LoopState) (d : Domain)
    (hnone : ∀ r ∈ records, ¬ (r.Name = d.Name ∧ r.Type_ = d.Type_))
    (hkey : ∀ r ∈ records, recordKey r = domainKey d → r.Name = d.Name ∧ r.Type_ = d.Type_) :
    (loopBody client (buildIndex records) ip dry s d).decisions
      = s.decisions ++ [Decision.Create d] ∧
    (loopBody client (buildIndex records) ip dry s d).calls
      = s.calls ++ (if dry then [] else [Call.CreateRecord d ip]) := by
  have hidx : buildIndex records (domainKey d) = none :=
    (buildIndex_eq_none records _).mpr fun r hr e => hnone r hr (hkey r hr e)
  have hdec : decisionFor (buildIndex records) ip d = Decision.Create d := by
    simp [decisionFor, hidx]
  rw [(loopBody_decisions_calls client _ ip dry s d).1,
    (loopBody_decisions_calls client _ ip dry s d).2, hdec]
  cases dry <;> simp [Decision.call]

/-- C2, amended, at the scenario: b.example.com/A has no remote record and is created. -/
theorem create_when_no_record_witness :
    (∀ r ∈ scenarioRecords, ¬ (r.Name = "b.example.com" ∧ r.Type_ = "A")) ∧
    (∀ r ∈ scenarioRecords,
      recordKey r = domainKey { Name := "b.example.com", Proxy := true, Type_ := "A" } →
        r.Name = "b.example.com" ∧ r.Type_ = "A") ∧
    (loopBody acceptingClient (buildIndex scenarioRecords) (IPv4 9 9 9 9) false {}
        { Name := "b.example.com", Proxy := true, Type_ := "A" }).decisions
      = [] ++ [Decision.Create { Name := "b.example.com", Proxy := true, Type_ := "A" }] ∧
    (loopBody acceptingClient (buildIndex scenarioRecords) (IPv4 9 9 9 9) false {}
        { Name := "b.example.com", Proxy := true, Type_ := "A" }).calls
      = [] ++ (if false then []
          else [Call.CreateRecord { Name := "b.example.com", Proxy := true, Type_ := "A" }
            (IPv4 9 9 9 9)]) :=
  ⟨by decide, by decide,
    create_when_no_record acceptingClient scenarioRecords (IPv4 9 9 9 9) false {}
      { Name := "b.example.com", Proxy := true, Type_ := "A" } (by decide) (by decide)⟩

/-- C3: when the index holds, under the key of a desired domain, a record whose Content
equals ip.String(), the loop body records NoOp and changes nothing else (no UpdateRecord, no
CreateRecord, no exit), whatever the Proxy flag of the domain and the Proxied flag of the
record. -/
theorem noop_when_content_current (client : CloudflareClient) (records : List DNSRecord)
    (ip : IP) (dry : Bool) (s : LoopState) (d : Domain) (proxy : Bool) (r : DNSRecord)
    (hidx : buildIndex records (domainKey d) = some r)
    (hcontent : r.Content = IP.String ip) :
    loopBody client (buildIndex records) ip dry s { d with Proxy := proxy }
      = { s with decisions := s.decisions ++ [Decision.NoOp { d with Proxy := proxy }] } := by
  have hk : domainKey { d with Proxy := proxy } = domainKey d := rfl
  simp [loopBody, hk, hidx, hcontent]

/-- C3 at currentRecords: the remote record is not proxied, the desired domain is, the
Content is the current IP, and nothing is done. -/
theorem noop_when_content_current_witness :
    buildIndex currentRecords (domainKey validConf.Domain)
      = some { ID := "id1", Type_ := "A", Name := "example.com", Content := "9.9.9.9",
               Proxied := false } ∧
    "9.9.9.9" = IP.String (IPv4 9 9 9 9) ∧
    loopBody acceptingClient (buildIndex currentRecords) (IPv4 9 9 9 9) false {}
        { validConf.Domain with Proxy := true }
      = { decisions := [] ++ [Decision.NoOp { validConf.Domain with Proxy := true }] } :=
  ⟨by decide, by decide,
    noop_when_content_current acceptingClient currentRecords (IPv4 9 9 9 9) false {}
      validConf.Domain true
      { ID := "id1", Type_ := "A", Name := "example.com", Content := "9.9.9.9", Proxied := false }
      (by decide) (by decide)⟩

/-! ## The reconcile loop -/

/-- The loop body reaches os.Exit(1) exactly when it makes a call and the call fails. -/
theorem loopBody_exited (client : CloudflareClient) (dMap : DMap) (ip : IP)
    (dry : Bool) (s : LoopState) (d : Domain) :
    (loopBody client dMap ip dry s d).exited =
      if dry then s.exited
      else match (decisionFor dMap ip d).call ip with
        | none => s.exited
        | some c => (client.answer s.calls.length c).isSome || s.exited := by
  unfold loopBody decisionFor
  cases hk : dMap (domainKey d) with
  | none =>
    cases dry
    · cases hc : client.CreateRecord s.calls.length d ip <;>
        simp [Decision.call, CloudflareClient.answer, hc]
    · simp
  | some record =>
    by_cases hcontent : record.Content ≠ IP.String ip
    · cases dry
      · cases hc : client.UpdateRecord s.calls.length d record.ID ip <;>
          simp [Decision.call, CloudflareClient.answer, hc, hcontent]
      · simp [hcontent]
    · cases dry <;> simp [hcontent, Decision.call]

/-- The loop body as a function of the decision. -/
theorem loopBody_eq (client : CloudflareClient) (dMap : DMap) (ip : IP)
    (dry : Bool) (s : LoopState) (d : Domain) :
    loopBody client dMap ip dry s d =
      { decisions := s.decisions ++ [decisionFor dMap ip d]
        calls := s.calls ++ (if dry then [] else ((decisionFor dMap ip d).call ip).toList)
        exited :=
          if dry then s.exited
          else match (decisionFor dMap ip d).call ip with
            | none => s.exited
            | some c => (client.answer s.calls.length c).isSome || s.exited } := by
  have h1 := loopBody_decisions_calls client dMap ip dry s d
  have h2 := loopBody_exited client dMap ip dry s d
  cases hb : loopBody client dMap ip dry s d with
  | mk ds cs ex =>
    rw [hb] at h1 h2
    simp only at h1 h2
    rw [h1.1, h1.2, h2]

/-- The planned calls of a list that starts with d. -/
theorem plannedCalls_cons (dMap : DMap) (ip : IP) (d : Domain) (rest : List Domain) :
    plannedCalls dMap ip (d :: rest) =
      ((decisionFor dMap ip d).call ip).toList ++ plannedCalls dMap ip rest := by
  unfold plannedCalls
  cases h : (decisionFor dMap ip d).call ip <;> simp [List.filterMap_cons, h]

/-- As long as every call made is accepted, the loop runs over all domains: it records the
decision of each, in order, makes the planned calls (none in dry mode) and does not exit. -/
theorem reconcileLoop_of_accepted (client : CloudflareClient) (dMap : DMap) (ip : IP)
    (dry : Bool) :
    ∀ (domains : List Domain) (s : LoopState), s.exited = false →
      (∀ n call, dry = false → (plannedCalls dMap ip domains)[n]? = some call →
        client.answer (s.calls.length + n) call = none) →
      reconcileLoop client dMap ip dry domains s =
        { decisions := s.decisions ++ domains.map (decisionFor dMap ip)
          calls := s.calls ++ (if dry then [] else plannedCalls dMap ip domains)
          exited := false } := by
  intro domains
  induction domains with
  | nil =>
    intro s hs _
    cases s with
    | mk ds cs ex =>
      simp only at hs
      subst hs
      cases dry <;> simp [reconcileLoop, plannedCalls]
  | cons d rest ih =>
    intro s hs hans
    have hbody := loopBody_eq client dMap ip dry s d
    have hpc := plannedCalls_cons dMap ip d rest
    cases dry with
    | true =>
      simp only [if_true, List.append_nil] at hbody
      have hex : (loopBody client dMap ip true s d).exited = false := by rw [hbody]; exact hs
      have hrec := ih (loopBody client dMap ip true s d) hex (by intro n call h; cases h)
      simp only [reconcileLoop, hex, if_true]
      rw [if_neg (by simp), hrec, hbody]
      simp
    | false =>
      cases hcall : (decisionFor dMap ip d).call ip with
      | none =>
        rw [hcall] at hbody hpc
        simp only [Bool.false_eq_true, if_false, Option.toList, List.append_nil] at hbody
        simp only [Option.toList, List.nil_append] at hpc
        have hex : (loopBody client dMap ip false s d).exited = false := by rw [hbody]; exact hs
        have hrec := ih (loopBody client dMap ip false s d) hex (by
          intro n call h hn
          have := hans n call h (by rw [hpc]; exact hn)
          rw [hbody]
          exact this)
        simp only [reconcileLoop]
        rw [if_neg (by simp [hex]), hrec, hbody, hpc]
        simp
      | some c =>
        rw [hcall] at hbody hpc
        have hc0 : client.answer s.calls.length c = none := by
          have := hans 0 c rfl (by rw [hpc]; simp [Option.toList])
          simpa using this
        simp only [Bool.false_eq_true, if_false, Option.toList, hc0, Option.isSome_none,
          Bool.false_or] at hbody
        simp only [Option.toList, List.singleton_append] at hpc
        have hex : (loopBody client dMap ip false s d).exited = false := by rw [hbody]; exact hs
        have hrec := ih (loopBody client dMap ip false s d) hex (by
          intro n call h hn
          have := hans (n + 1) call h (by rw [hpc]; simpa using hn)
          rw [hbody]
          simp only [List.length_append, List.length_singleton]
          rw [Nat.add_assoc, Nat.add_comm 1 n]
          exact this)
        simp only [reconcileLoop]
        rw [if_neg (by simp [hex]), hrec, hbody, hpc]
        simp

/-- The loop over a list in two parts: it stops in the first part if that part exits, and
otherwise goes on with the second part. -/
theorem reconcileLoop_append (client : CloudflareClient) (dMap : DMap) (ip : IP) (dry : Bool)
    (post : List Domain) :
    ∀ (pre : List Domain) (s : LoopState), s.exited = false →
      reconcileLoop client dMap ip dry (pre ++ post) s =
        if (reconcileLoop client dMap ip dry pre s).exited then reconcileLoop client dMap ip dry pre s
        else reconcileLoop client dMap ip dry post (reconcileLoop client dMap ip dry pre s) := by
  intro pre
  induction pre with
  | nil => intro s hs; simp [reconcileLoop, hs]
  | cons d rest ih =>
    intro s hs
    by_cases hex : (loopBody client dMap ip dry s d).exited = true
    · simp [reconcileLoop, hex]
    · have hex2 : (loopBody client dMap ip dry s d).exited = false := by simpa using hex
      simp only [List.cons_append, reconcileLoop, hex2, Bool.false_eq_true, if_false]
      exact ih _ hex2

/-- A decision is about the domain it was taken for. -/
theorem decisionFor_domain (dMap : DMap) (ip : IP) (d : Domain) :
    (decisionFor dMap ip d).domain = d := by
  unfold decisionFor
  cases dMap (domainKey d) with
  | none => rfl
  | some record =>
    by_cases h : record.Content ≠ IP.String ip <;> simp [h, Decision.domain]

/-- C9: in dry mode the reconcile loop, for every client, remote record list, IP and desired
list, makes no UpdateRecord and no CreateRecord call, records one decision per domain, and
runs to completion without reaching os.Exit(1). -/
theorem dry_run_makes_no_call (client : CloudflareClient) (records : List DNSRecord) (ip : IP)
    (domains : List Domain) :
    reconcileLoop client (buildIndex records) ip true domains {} =
      { decisions := domains.map (decisionFor (buildIndex records) ip)
        calls := []
        exited := false } := by
  have h := reconcileLoop_of_accepted client (buildIndex records) ip true domains {} rfl
    (by intro n call hdry; cases hdry)
  simpa using h

/-- C4: when no client call fails, the reconcile loop records exactly one decision per entry
of GetDomainList, in the order of that list, hence len(SubDomains)+1 decisions; and in the
scenario of validConf with remote records example.com/A (1.2.3.4, id1) and a.example.com/A
(5.6.7.8, id2) and current IP 9.9.9.9 the decisions are Update(example.com, id1),
Update(a.example.com, id2), Create(b.example.com). -/
theorem one_decision_per_domain (client : CloudflareClient) (records : List DNSRecord)
    (ip : IP) (dry : Bool) (c : Config)
    (hok : ∀ n call, client.answer n call = none) :
    (reconcileLoop client (buildIndex records) ip dry c.GetDomainList {}).exited = false ∧
    (reconcileLoop client (buildIndex records) ip dry c.GetDomainList {}).decisions.map
      Decision.domain = c.GetDomainList ∧
    (reconcileLoop client (buildIndex records) ip dry c.GetDomainList {}).decisions.length
      = c.SubDomains.length + 1 ∧
    (reconcileLoop client (buildIndex scenarioRecords) (IPv4 9 9 9 9) dry
        validConf.GetDomainList {}).decisions
      = [Decision.Update { Name := "example.com", Proxy := true, Type_ := A } "id1",
         Decision.Update { Name := "a.example.com", Proxy := false, Type_ := A } "id2",
         Decision.Create { Name := "b.example.com", Proxy := true, Type_ := A }] := by
  have h := reconcileLoop_of_accepted client (buildIndex records) ip dry c.GetDomainList {} rfl
    (fun n call _ _ => hok _ call)
  have hs := reconcileLoop_of_accepted client (buildIndex scenarioRecords) (IPv4 9 9 9 9) dry
    validConf.GetDomainList {} rfl (fun n call _ _ => hok _ call)
  rw [h, hs]
  refine ⟨rfl, ?_, ?_, ?_⟩
  · simp [Function.comp_def, decisionFor_domain]
  · simp [getDomainList_eq]
  · simp only [List.nil_append]
    decide

/-- C4 at a client that accepts every call, outside dry mode. -/
theorem one_decision_per_domain_witness :
    (∀ n call, acceptingClient.answer n call = none) ∧
    (reconcileLoop acceptingClient (buildIndex scenarioRecords) (IPv4 9 9 9 9) false
        validConf.GetDomainList {}).decisions.length = validConf.SubDomains.length + 1 ∧
    (reconcileLoop acceptingClient (buildIndex scenarioRecords) (IPv4 9 9 9 9) false
        validConf.GetDomainList {}).decisions
      = [Decision.Update { Name := "example.com", Proxy := true, Type_ := A } "id1",
         Decision.Update { Name := "a.example.com", Proxy := false, Type_ := A } "id2",
         Decision.Create { Name := "b.example.com", Proxy := true, Type_ := A }] := by
  have hok : ∀ n call, acceptingClient.answer n call = none := by
    intro n call
    cases call <;> rfl
  have h := one_decision_per_domain acceptingClient scenarioRecords (IPv4 9 9 9 9) false
    validConf hok
  exact ⟨hok, h.2.2.1, h.2.2.2⟩

/-- C10: outside dry mode, if the calls planned for the domains before position k are all
accepted and the call for the domain at position k fails, the loop stops there with
os.Exit(1): the calls made are those planned for the earlier positions, in order, followed
by the failing call, and nothing is done for the later positions. -/
theorem fail_fast (client : CloudflareClient) (dMap : DMap) (ip : IP)
    (pre : List Domain) (d : Domain) (post : List Domain) (c : Call)
    (hprev : ∀ n call, (plannedCalls dMap ip pre)[n]? = some call →
      client.answer n call = none)
    (hcall : (decisionFor dMap ip d).call ip = some c)
    (hfail : client.answer (plannedCalls dMap ip pre).length c ≠ none) :
    reconcileLoop client dMap ip false (pre ++ d :: post) {} =
      { decisions := (pre ++ [d]).map (decisionFor dMap ip)
        calls := plannedCalls dMap ip pre ++ [c]
        exited := true } := by
  have hpre := reconcileLoop_of_accepted client dMap ip false pre {} rfl
    (by intro n call _ h; simpa using hprev n call h)
  have hsome : (client.answer (plannedCalls dMap ip pre).length c).isSome = true := by
    cases h : client.answer (plannedCalls dMap ip pre).length c with
    | none => exact absurd h hfail
    | some e => rfl
  rw [reconcileLoop_append client dMap ip false (d :: post) pre {} rfl, hpre]
  simp only [Bool.false_eq_true, if_false, List.nil_append]
  have hbody := loopBody_eq client dMap ip false
    { decisions := pre.map (decisionFor dMap ip), calls := plannedCalls dMap ip pre,
      exited := false } d
  rw [hcall] at hbody
  simp only [Bool.false_eq_true, if_false, Option.toList, hsome, Bool.true_or] at hbody
  simp only [reconcileLoop, hbody, if_true]
  simp

/-- C10 at the scenario with a remote API that rejects the second mutation: the update of
a.example.com fails, b.example.com is never created. -/
theorem fail_fast_witness :
    (∀ n call, (plannedCalls (buildIndex scenarioRecords) (IPv4 9 9 9 9)
        [{ Name := "example.com", Proxy := true, Type_ := A }])[n]? = some call →
      secondFailsClient.answer n call = none) ∧
    reconcileLoop secondFailsClient (buildIndex scenarioRecords) (IPv4 9 9 9 9) false
        ([{ Name := "example.com", Proxy := true, Type_ := A }] ++
          { Name := "a.example.com", Proxy := false, Type_ := A } ::
          [{ Name := "b.example.com", Proxy := true, Type_ := A }]) {}
      = { decisions :=
            [Decision.Update { Name := "example.com", Proxy := true, Type_ := A } "id1",
             Decision.Update { Name := "a.example.com", Proxy := false, Type_ := A } "id2"]
          calls :=
            [Call.UpdateRecord { Name := "example.com", Proxy := true, Type_ := A } "id1"
               (IPv4 9 9 9 9),
             Call.UpdateRecord { Name := "a.example.com", Proxy := false, Type_ := A } "id2"
               (IPv4 9 9 9 9)]
          exited := true } := by
  have hp : plannedCalls (buildIndex scenarioRecords) (IPv4 9 9 9 9)
      [{ Name := "example.com", Proxy := true, Type_ := A }]
      = [Call.UpdateRecord { Name := "example.com", Proxy := true, Type_ := A } "id1"
          (IPv4 9 9 9 9)] := by decide
  have hprev : ∀ n call, (plannedCalls (buildIndex scenarioRecords) (IPv4 9 9 9 9)
      [{ Name := "example.com", Proxy := true, Type_ := A }])[n]? = some call →
      secondFailsClient.answer n call = none := by
    intro n call h
    rw [hp] at h
    cases n with
    | zero =>
      simp only [List.getElem?_cons_zero, Option.some.injEq] at h
      subst h
      rfl
    | succ m => simp at h
  have h := fail_fast secondFailsClient (buildIndex scenarioRecords) (IPv4 9 9 9 9)
    [{ Name := "example.com", Proxy := true, Type_ := A }]
    { Name := "a.example.com", Proxy := false, Type_ := A }
    [{ Name := "b.example.com", Proxy := true, Type_ := A }]
    (Call.UpdateRecord { Name := "a.example.com", Proxy := false, Type_ := A } "id2"
      (IPv4 9 9 9 9))
    hprev (by decide) (by decide)
  refine ⟨hprev, ?_⟩
  rw [h, hp]
  decide

/-! ## Record types -/

/-- The call of a decision passes the domain of the decision. -/
theorem call_domain_of_decision (ip : IP) (dec : Decision) (call : Call)
    (h : dec.call ip = some call) : call.domain = dec.domain := by
  cases dec with
  | NoOp d => simp [Decision.call] at h
  | Update d id =>
    simp only [Decision.call, Option.some.injEq] at h
    subst h
    rfl
  | Create d =>
    simp only [Decision.call, Option.some.injEq] at h
    subst h
    rfl

/-- A call the loop body adds passes the domain the body was run for. -/
theorem loopBody_calls_domain (client : CloudflareClient) (dMap : DMap) (ip : IP)
    (dry : Bool) (s : LoopState) (d : Domain) :
    ∀ call ∈ (loopBody client dMap ip dry s d).calls, call ∈ s.calls ∨ call.domain = d := by
  intro call hcall
  rw [(loopBody_decisions_calls client dMap ip dry s d).2, List.mem_append] at hcall
  rcases hcall with h | h
  · exact Or.inl h
  · right
    cases dry with
    | true => simp at h
    | false =>
      simp only [Bool.false_eq_true, if_false, Option.mem_toList, Option.mem_def] at h
      rw [call_domain_of_decision ip _ call h, decisionFor_domain]

/-- Every call the loop makes passes one of the domains the loop runs over. -/
theorem reconcileLoop_calls_domain (client : CloudflareClient) (dMap : DMap) (ip : IP)
    (dry : Bool) :
    ∀ (domains : List Domain) (s : LoopState),
      ∀ call ∈ (reconcileLoop client dMap ip dry domains s).calls,
        call ∈ s.calls ∨ call.domain ∈ domains := by
  intro domains
  induction domains with
  | nil => intro s call h; exact Or.inl (by simpa [reconcileLoop] using h)
  | cons d rest ih =>
    intro s call h
    have hbody := loopBody_calls_domain client dMap ip dry s d
    by_cases hex : (loopBody client dMap ip dry s d).exited = true
    · simp only [reconcileLoop, hex, if_true] at h
      rcases hbody call h with h1 | h1
      · exact Or.inl h1
      · exact Or.inr (by simp [h1])
    · simp only [reconcileLoop, hex, if_false] at h
      rcases ih _ call h with h1 | h1
      · rcases hbody call h1 with h2 | h2
        · exact Or.inl h2
        · exact Or.inr (by simp [h2])
      · exact Or.inr (List.mem_cons_of_mem _ h1)

/-- C6, as the code stands: a configuration with valid credentials and record type TXT is
not rejected; on a first run its domain is handed to the reconcile loop and passed to
CreateRecord, and main ends with exit status 0. -/
theorem recordType_unchecked_counterexample :
    RecordType.IsValid "TXT" = false ∧
    txtConf.GetDomainList = [{ Name := "example.com", Proxy := false, Type_ := "TXT" }] ∧
    (∃ d ∈ txtConf.GetDomainList, RecordType.IsValid d.Type_ = false) ∧
    (main (firstRun txtConf false "9.9.9.9" [])).stop = Stop.done ∧
    Stop.exitCode (main (firstRun txtConf false "9.9.9.9" [])).stop = 0 ∧
    (main (firstRun txtConf false "9.9.9.9" [])).calls =
      [Call.CreateRecord { Name := "example.com", Proxy := false, Type_ := "TXT" }
        (IPv4 9 9 9 9)] ∧
    (∃ call ∈ (main (firstRun txtConf false "9.9.9.9" [])).calls,
      RecordType.IsValid call.domain.Type_ = false) := by
  decide

/-- C6, amended: IsValid is true exactly for A, AAAA, CNAME and MX, and nothing calls it:
GetDomainList passes the record types through unchanged, so the domains handed to the
reconcile loop are all valid exactly when the root domain and every subdomain of the
configuration are; every domain the loop passes to UpdateRecord or CreateRecord is one of the
domains of GetDomainList, hence valid whenever the configured ones are. -/
theorem recordType_isValid_passthrough (rt : RecordType) (c : Config)
    (client : CloudflareClient) (records : List DNSRecord) (ip : IP) (dry : Bool) :
    (RecordType.IsValid rt = true ↔ rt = "A" ∨ rt = "AAAA" ∨ rt = "CNAME" ∨ rt = "MX") ∧
    c.GetDomainList.map Domain.Type_ = c.Domain.Type_ :: c.SubDomains.map Domain.Type_ ∧
    ((∀ d ∈ c.GetDomainList, RecordType.IsValid d.Type_ = true) ↔
      (RecordType.IsValid c.Domain.Type_ = true ∧
        ∀ d ∈ c.SubDomains, RecordType.IsValid d.Type_ = true)) ∧
    (∀ call ∈ (reconcileLoop client (buildIndex records) ip dry c.GetDomainList {}).calls,
      call.domain ∈ c.GetDomainList) ∧
    ((RecordType.IsValid c.Domain.Type_ = true ∧
        ∀ d ∈ c.SubDomains, RecordType.IsValid d.Type_ = true) →
      ∀ call ∈ (reconcileLoop client (buildIndex records) ip dry c.GetDomainList {}).calls,
        RecordType.IsValid call.domain.Type_ = true) := by
  have hiff : (∀ d ∈ c.GetDomainList, RecordType.IsValid d.Type_ = true) ↔
      (RecordType.IsValid c.Domain.Type_ = true ∧
        ∀ d ∈ c.SubDomains, RecordType.IsValid d.Type_ = true) := by
    rw [getDomainList_eq]
    simp
  have hcalls : ∀ call ∈
      (reconcileLoop client (buildIndex records) ip dry c.GetDomainList {}).calls,
      call.domain ∈ c.GetDomainList := by
    intro call h
    rcases reconcileLoop_calls_domain client (buildIndex records) ip dry c.GetDomainList {}
      call h with h1 | h1
    · cases h1
    · exact h1
  refine ⟨by simp [RecordType.IsValid, A, AAAA, CNAME, MX], ?_, hiff, hcalls, ?_⟩
  · rw [getDomainList_eq]
    simp [Function.comp_def]
  · intro hvalid call h
    exact hiff.mpr hvalid call.domain (hcalls call h)

/-- C6, amended, at validConf and the scenario outside dry mode: the three domains handed to
the loop and the three domains passed to the client have a valid type because the configured
ones do. -/
theorem recordType_isValid_passthrough_witness :
    (RecordType.IsValid validConf.Domain.Type_ = true ∧
      ∀ d ∈ validConf.SubDomains, RecordType.IsValid d.Type_ = true) ∧
    (∀ d ∈ validConf.GetDomainList, RecordType.IsValid d.Type_ = true) ∧
    (reconcileLoop acceptingClient (buildIndex scenarioRecords) (IPv4 9 9 9 9) false
      validConf.GetDomainList {}).calls.length = 3 ∧
    (∀ call ∈ (reconcileLoop acceptingClient (buildIndex scenarioRecords) (IPv4 9 9 9 9) false
      validConf.GetDomainList {}).calls, RecordType.IsValid call.domain.Type_ = true) :=
  ⟨by decide,
    (recordType_isValid_passthrough "A" validConf acceptingClient scenarioRecords
      (IPv4 9 9 9 9) false).2.2.1.mpr (by decide),
    by decide,
    (recordType_isValid_passthrough "A" validConf acceptingClient scenarioRecords
      (IPv4 9 9 9 9) false).2.2.2.2 (by decide)⟩

/-! ## Start-up of main -/

/-- Two ways main ends before the loop: with empty credentials cloudflare.New refuses and the
exit status is 1; with logging asked for and syslog.New failing on linux, the first log
message panics, exit status 2, while on darwin syslog is not set up and the run completes. -/
theorem main_startup_examples :
    (main (firstRun { txtConf with Cloudflare := {} } false "9.9.9.9" [])).stop
      = Stop.clientError ∧
    (main (firstRun { txtConf with Cloudflare := {} } false "9.9.9.9" [])).calls = [] ∧
    (main { firstRun validConf false "9.9.9.9" scenarioRecords with
        syslogError := some "unix syslog delivery error" }).stop = Stop.panic ∧
    Stop.exitCode Stop.panic = 2 ∧
    (main { firstRun validConf false "9.9.9.9" scenarioRecords with
        syslogError := some "unix syslog delivery error", goos := "darwin" }).stop
      = Stop.done := by
  decide

/-! ## The cache -/

/-- The nil IP equals exactly the IPs of length zero. -/
theorem equal_nil_iff (ip : IP) : IP.Equal [] ip = true ↔ ip = [] := by
  cases ip with
  | nil => simp [IP.Equal]
  | cons b rest =>
    simp [IP.Equal, IPv4len, IPv6len]

/-- C7, at the failing input: there is no cache file and the IP service answers with a JSON
body whose ip field is empty, so QueryIP returns the nil IP without error; the nil cache IP
equals it and main stops with the IP unchanged, exit status 0, before any reconciliation. -/
theorem first_run_nil_ip_stops_unchanged :
    QueryIP (IpifyReply.resp "") = ([], none) ∧
    ReadCache {} = ([], some PathError.notExist) ∧
    IP.Equal (ReadCache {}).1 (QueryIP (IpifyReply.resp "")).1 = true ∧
    main (firstRun validConf false "" scenarioRecords)
      = { stop := Stop.unchanged, decisions := [], calls := [], cache := {} } ∧
    Stop.exitCode (main (firstRun validConf false "" scenarioRecords)).stop = 0 := by
  decide

/-- WriteCache leaves exactly the text of the IP in the file when the file did not exist or
held at most as many bytes as the text. -/
theorem writeCache_exact_of_short (ip : IP) (f : CacheFile)
    (hopen : f.openError = none) (hwrite : f.writeError = none)
    (hlen : (f.content.getD []).length ≤ (bytesOf (IP.String ip)).length) :
    (WriteCache ip f).2 = none ∧
    (WriteCache ip f).1.content = some (bytesOf (IP.String ip)) := by
  simp [WriteCache, hopen, hwrite, List.drop_eq_nil_of_le hlen]

/-- C8, at the failing input: the cache file holds 192.168.100.100 from an earlier run and
WriteCache(1.2.3.4) succeeds; the file then holds 1.2.3.4.100.100, not 1.2.3.4, and
ReadCache returns the nil IP, which is not equal to 1.2.3.4. -/
theorem writeCache_keeps_old_tail :
    IP.String (IPv4 1 2 3 4) = "1.2.3.4" ∧
    WriteCache (IPv4 1 2 3 4) { content := some (bytesOf "192.168.100.100") }
      = ({ content := some (bytesOf "1.2.3.4.100.100") }, none) ∧
    bytesOf "1.2.3.4.100.100" ≠ bytesOf (IP.String (IPv4 1 2 3 4)) ∧
    ReadCache (WriteCache (IPv4 1 2 3 4) { content := some (bytesOf "192.168.100.100") }).1
      = ([], none) ∧
    IP.Equal
      (ReadCache (WriteCache (IPv4 1 2 3 4) { content := some (bytesOf "192.168.100.100") }).1).1
      (IPv4 1 2 3 4) = false := by
  decide

/-! ## When keys cannot clash -/

/-- A list split at a separator that occurs in neither right part splits in one way only. -/
theorem split_at_last_sep (x : Char) :
    ∀ (r1 r2 l1 l2 : List Char), x ∉ r1 → x ∉ r2 → r1 ++ x :: l1 = r2 ++ x :: l2 →
      r1 = r2 ∧ l1 = l2 := by
  intro r1
  induction r1 with
  | nil =>
    intro r2 l1 l2 _ h2 h
    cases r2 with
    | nil => simpa using h
    | cons y r2t =>
      simp only [List.nil_append, List.cons_append, List.cons.injEq] at h
      exact absurd (by rw [← h.1]; simp) h2
  | cons y r1t ih =>
    intro r2 l1 l2 h1 h2 h
    cases r2 with
    | nil =>
      simp only [List.nil_append, List.cons_append, List.cons.injEq] at h
      exact absurd (by rw [h.1]; simp) h1
    | cons z r2t =>
      simp only [List.cons_append, List.cons.injEq] at h
      have := ih r2t l1 l2 (fun hm => h1 (List.mem_cons_of_mem _ hm))
        (fun hm => h2 (List.mem_cons_of_mem _ hm)) h.2
      exact ⟨by rw [h.1, this.1], this.2⟩

/-- The key string Name + "|" + Type determines Name and Type when no Type contains the
separator. -/
theorem keyString_inj (n1 t1 n2 t2 : String) (h1 : '|' ∉ t1.data) (h2 : '|' ∉ t2.data)
    (h : n1 ++ "|" ++ t1 = n2 ++ "|" ++ t2) : n1 = n2 ∧ t1 = t2 := by
  have hd : n1.data ++ '|' :: t1.data = n2.data ++ '|' :: t2.data := by
    have := congrArg String.data h
    simpa [String.data_append] using this
  have hrev := congrArg List.reverse hd
  simp only [List.reverse_append, List.reverse_cons, List.append_assoc,
    List.singleton_append] at hrev
  have := split_at_last_sep '|' t1.data.reverse t2.data.reverse n1.data.reverse
    n2.data.reverse (by simpa using h1) (by simpa using h2) hrev
  have ht : t1.data = t2.data := List.reverse_injective this.1
  have hn : n1.data = n2.data := List.reverse_injective this.2
  exact ⟨String.ext hn, String.ext ht⟩

/-- No remote record of another Name or Type is stored under the key of a domain when no
Type contains the separator and SHA-256 does not collide on the key strings at hand. -/
theorem key_clash_free_of_no_sep (records : List DNSRecord) (d : Domain)
    (hd : '|' ∉ d.Type_.data) (hr : ∀ r ∈ records, '|' ∉ r.Type_.data)
    (hsha : ∀ r ∈ records, recordKey r = domainKey d →
      r.Name ++ "|" ++ r.Type_ = d.Name ++ "|" ++ d.Type_) :
    ∀ r ∈ records, recordKey r = domainKey d → r.Name = d.Name ∧ r.Type_ = d.Type_ :=
  fun r hmem hk => keyString_inj r.Name r.Type_ d.Name d.Type_ (hr r hmem) hd (hsha r hmem hk)

end Ipagent
